import Mathlib

/-!
Shallow embedding of the `compiler-utils` parser-combinator toolkit
(`src/parser/location.rs`, `src/parser/walker.rs`,
`src/parser/parsers/{leaves,combinators,errors}.rs`, `src/errors/display.rs`).

Source strings (`&str`) are modelled as `List Char`; byte offsets are `Nat`
measured with each character's UTF-8 encoded length (`Char.utf8Size`, the
Lean counterpart of Rust's `char::len_utf8`).  Fallible operations return
`Option`/`Except`; a Rust `panic!`/failed `unwrap` is `none` (or
`RunAbort.fault`), and a provably infinite loop is `RunAbort.diverge`.
-/

namespace CompilerUtils

/-- `Location` from `src/parser/location.rs`: zero-based column/line plus a
filename label. -/
structure Location where
  column : Nat
  line : Nat
  filename : String
deriving DecidableEq, Repr

/-- `Span` from `src/parser/location.rs`.  The Rust `data` field is a borrowed
slice into the originating source; the extra `index` field records the byte
offset of that slice within the source, which Rust recovers from the slice
pointer (`span.data.as_ptr() - all_data.as_ptr()` in `expand_span`). -/
structure Span where
  index : Nat
  location : Location
  data : List Char
deriving DecidableEq, Repr

/-- Total UTF-8 byte length of a character list (Rust `str::len`). -/
def utf8Len (s : List Char) : Nat := (s.map Char.utf8Size).sum

/-- Rust `str::is_char_boundary`: `i` is `0`, the total length, or the start
of an encoded character. -/
def isCharBoundary : List Char → Nat → Bool
  | _, 0 => true
  | [], _ + 1 => false
  | c :: cs, i + 1 =>
    if i + 1 < c.utf8Size then false else isCharBoundary cs (i + 1 - c.utf8Size)

/-- Drop the first `i` bytes of a string (Rust `&s[i..]`; meaningful when `i`
is a character boundary, which is the only way the code uses it). -/
def dropBytes : List Char → Nat → List Char
  | s, 0 => s
  | [], _ + 1 => []
  | c :: cs, i + 1 => dropBytes cs (i + 1 - c.utf8Size)

/-- Take the first `i` bytes of a string (Rust `&s[..i]` at a boundary). -/
def takeBytes : List Char → Nat → List Char
  | _, 0 => []
  | [], _ + 1 => []
  | c :: cs, i + 1 => c :: takeBytes cs (i + 1 - c.utf8Size)

/-- Rust `&s[a..b]` at character boundaries. -/
def sliceBytes (s : List Char) (a b : Nat) : List Char := takeBytes (dropBytes s a) (b - a)

/-- `FileWalker` from `src/parser/walker.rs`. -/
structure FileWalker where
  all_data : List Char
  filename : String
  current_byte_index : Nat
  column : Nat
  line : Nat
deriving DecidableEq, Repr

/-- `FileLocationMarker` from `src/parser/walker.rs`. -/
structure FileLocationMarker where
  index : Nat
  column : Nat
  line : Nat
deriving DecidableEq, Repr

namespace FileWalker

/-- `FileWalker::from_data`. -/
def from_data (data : List Char) (filename : String) : FileWalker :=
  { all_data := data, filename := filename, current_byte_index := 0, column := 0, line := 0 }

/-- `FileWalker::from_span`. -/
def from_span (sp : Span) : FileWalker :=
  { all_data := sp.data, filename := sp.location.filename, current_byte_index := 0,
    column := sp.location.column, line := sp.location.line }

/-- `FileWalker::current_location`. -/
def current_location (w : FileWalker) : Location :=
  { column := w.column, line := w.line, filename := w.filename }

/-- `FileWalker::get_marker`. -/
def get_marker (w : FileWalker) : FileLocationMarker :=
  { index := w.current_byte_index, column := w.column, line := w.line }

/-- `FileWalker::current_string`. -/
def current_string (w : FileWalker) : List Char :=
  if w.current_byte_index ≥ utf8Len w.all_data then []
  else dropBytes w.all_data w.current_byte_index

/-- `FileWalker::step`: consume the next character, if any, advancing the byte
offset by its UTF-8 length; `'\n'` bumps the line and resets the column, any
other character (including `'\r'`) bumps the column. -/
def step (w : FileWalker) : Option Char × FileWalker :=
  match w.current_string with
  | [] => (none, w)
  | c :: _ =>
    (some c,
      { w with
        current_byte_index := w.current_byte_index + c.utf8Size,
        line := if c = '\n' then w.line + 1 else w.line,
        column := if c = '\n' then 0 else w.column + 1 })

/-- `FileWalker::pop_back`: roll back to a marker when its stored offset is a
character boundary, otherwise report `false` and stay put. -/
def pop_back (w : FileWalker) (m : FileLocationMarker) : Bool × FileWalker :=
  if isCharBoundary w.all_data m.index then
    (true, { w with current_byte_index := m.index, line := m.line, column := m.column })
  else
    (false, w)

/-- `FileWalker::span_from_marker_to_here`. -/
def span_from_marker_to_here (w : FileWalker) (m : FileLocationMarker) : Option Span :=
  if m.index = w.current_byte_index then
    some { index := w.current_byte_index, location := w.current_location, data := [] }
  else if ¬ isCharBoundary w.all_data m.index ∨ m.index > w.current_byte_index then
    none
  else
    some { index := m.index,
           location := { column := m.column, line := m.line, filename := w.filename },
           data := sliceBytes w.all_data m.index w.current_byte_index }

/-- `FileWalker::get_location_of_marker`. -/
def get_location_of_marker (w : FileWalker) (m : FileLocationMarker) : Option Location :=
  if isCharBoundary w.all_data m.index then
    some { column := m.column, line := m.line, filename := w.filename }
  else
    none

end FileWalker

/-- Abnormal outcomes of running code that can hang or panic. -/
inductive RunAbort where
  | diverge
  | fault
deriving DecidableEq, Repr

/-- The backward line scan of `FileWalker::expand_span` (the
`while current_index > 0 { ... }` loop).  The inner
`while current_index > 0 && !self.all_data.is_char_boundary(current_index) {}`
has an empty body, so whenever its condition holds the Rust program loops
forever; that state is modelled as `RunAbort.diverge`.  The slice
`self.all_data[current_index..current_index + 2]` panics when its end is out
of bounds or not a character boundary; that is `RunAbort.fault`. -/
def walkBackLoop (data : List Char) : Nat → Nat → Except RunAbort Nat
  | _, 0 => .ok 0
  | lr, ci + 1 =>
    if ci != 0 && !(isCharBoundary data ci) then .error .diverge
    else if ci + 2 > utf8Len data || !(isCharBoundary data (ci + 2)) then .error .fault
    else if (dropBytes data ci).head? = some '\n' then
      if lr - 1 = 0 then .ok (ci + 1) else walkBackLoop data (lr - 1) ci
    else walkBackLoop data lr ci

/-- The forward scan of `FileWalker::expand_span`
(`for c in self.all_data[span_byte_index..].chars() { ... }`). -/
def walkForwardLoop : List Char → Nat → Nat → Nat
  | [], _, idx => idx
  | c :: cs, lr, idx =>
    if c = '\n' then
      if lr - 1 = 0 then idx else walkForwardLoop cs (lr - 1) (idx + c.utf8Size)
    else walkForwardLoop cs lr (idx + c.utf8Size)

/-- `FileWalker::expand_span`.  The failed `assert!(span_byte_index <=
self.all_data.len())` is a `fault`; the two scan loops are `walkBackLoop` and
`walkForwardLoop`.  Whenever the result is `.ok`, both slice indices of the
final `&self.all_data[start_index..current_index]` are character boundaries. -/
def FileWalker.expand_span (w : FileWalker) (sp : Span) (lines_away : Nat) :
    Except RunAbort Span :=
  if sp.index > utf8Len w.all_data then .error .fault
  else
    let start_line_number := max sp.location.line lines_away - lines_away
    let location : Location := { column := 0, line := start_line_number, filename := w.filename }
    let startRes : Except RunAbort Nat :=
      if start_line_number = 0 then .ok 0
      else walkBackLoop w.all_data (sp.location.line - start_line_number + 1) sp.index
    match startRes with
    | .error e => .error e
    | .ok start_index =>
      let current_index := walkForwardLoop (dropBytes w.all_data sp.index) (lines_away + 1) sp.index
      .ok { index := start_index, location := location,
            data := sliceBytes w.all_data start_index current_index }

/-! ## Parsing functions (`src/parser/parsers/`)

A Rust parsing function has type
`Fn(&mut FileWalker) -> Result<T, ParsingError>`.  It is modelled as a pure
function from the walker to the `Result` paired with the walker's final
state, wrapped in `Option`: `none` models a `panic!` (a failed `unwrap`)
escaping the call. -/

/-- `ErrorKind` from `src/parser/parsers/errors.rs`. -/
inductive ErrorKind where
  | ExpectedTag (text : List Char)
  | ExpectedKind (kind : String)
  | ExpectedOneOfKind (kind : String)
  | ExpectedOneOf (charset : List Char)
  | InverseFailedGot (text : List Char)
  | DemoError
deriving DecidableEq, Repr

/-- `ParsingError` from `src/parser/parsers/errors.rs`. -/
structure ParsingError where
  location : Location
  kind : ErrorKind
deriving DecidableEq, Repr

/-- A parsing function: walker in, `Result` plus final walker out; `none` is a
panic escaping the call. -/
def Parser (α : Type) : Type :=
  FileWalker → Option (Except ParsingError α × FileWalker)

/-- The character-matching loop of `tag` (`src/parser/parsers/leaves.rs`):
step over each character of the literal, rolling back and failing with
`ExpectedTag` on the first mismatch or end of input. -/
def tagGo (full : List Char) (start : FileLocationMarker) :
    List Char → FileWalker → Option (Except ParsingError Span × FileWalker)
  | [], w => (w.span_from_marker_to_here start).map (fun sp => (.ok sp, w))
  | c :: cs, w =>
    let r := w.step
    if r.1 = some c then tagGo full start cs r.2
    else
      let w2 := (r.2.pop_back start).2
      match w2.get_location_of_marker start with
      | none => none
      | some loc => some (.error ⟨loc, .ExpectedTag full⟩, w2)

/-- `tag` from `src/parser/parsers/leaves.rs`. -/
def tag (s : List Char) : Parser Span := fun w => tagGo s w.get_marker s w

/-- `take_if` from `src/parser/parsers/leaves.rs`. -/
def take_if (f : Char → Bool) (kind : String) : Parser Span := fun w =>
  let start := w.get_marker
  let r := w.step
  match r.1 with
  | some c =>
    if f c then (r.2.span_from_marker_to_here start).map (fun sp => (.ok sp, r.2))
    else
      let w2 := (r.2.pop_back start).2
      match w2.get_location_of_marker start with
      | none => none
      | some loc => some (.error ⟨loc, .ExpectedOneOfKind kind⟩, w2)
  | none =>
    let w2 := (r.2.pop_back start).2
    match w2.get_location_of_marker start with
    | none => none
    | some loc => some (.error ⟨loc, .ExpectedOneOfKind kind⟩, w2)

/-- `pair` from `src/parser/parsers/combinators.rs`: a failure of the second
component pops the walker back to the marker taken before the first ran and
propagates that error unchanged. -/
def pair (first : Parser α) (second : Parser β) : Parser (α × β) := fun w =>
  let start := w.get_marker
  match first w with
  | none => none
  | some (.error e, w1) => some (.error e, w1)
  | some (.ok a, w1) =>
    match second w1 with
    | none => none
    | some (.error e, w2) => some (.error e, (w2.pop_back start).2)
    | some (.ok b, w2) => some (.ok (a, b), w2)

/-- `triple` from `src/parser/parsers/combinators.rs`. -/
def triple (first : Parser α) (second : Parser β) (third : Parser γ) :
    Parser (α × β × γ) := fun w =>
  let start := w.get_marker
  match first w with
  | none => none
  | some (.error e, w1) => some (.error e, w1)
  | some (.ok a, w1) =>
    match second w1 with
    | none => none
    | some (.error e, w2) => some (.error e, (w2.pop_back start).2)
    | some (.ok b, w2) =>
      match third w2 with
      | none => none
      | some (.error e, w3) => some (.error e, (w3.pop_back start).2)
      | some (.ok c, w3) => some (.ok (a, b, c), w3)

/-- `but_not` from `src/parser/parsers/combinators.rs`: run `first`; on
success, re-run `second` on a fresh walker scoped to exactly the consumed
text; if it succeeds and its own consumed span equals that whole text, fail
with `InverseFailedGot` at the start marker's location, leaving the outer
walker where `first` left it; otherwise return `first`'s value.  The two
`unwrap`s on `span_from_marker_to_here` and the one on
`get_location_of_marker` panic (`none`) when they yield nothing. -/
def but_not (first : Parser α) (second : Parser β) : Parser α := fun w =>
  let start := w.get_marker
  match first w with
  | none => none
  | some (.error e, w1) => some (.error e, w1)
  | some (.ok value, w1) =>
    match w1.span_from_marker_to_here start with
    | none => none
    | some span =>
      let walker_of_first := FileWalker.from_span span
      let second_start := walker_of_first.get_marker
      match second walker_of_first with
      | none => none
      | some (.ok _, wq) =>
        match wq.span_from_marker_to_here second_start with
        | none => none
        | some second_span =>
          if second_span.data = span.data then
            match w1.get_location_of_marker start with
            | none => none
            | some loc => some (.error ⟨loc, .InverseFailedGot span.data⟩, w1)
          else some (.ok value, w1)
      | some (.error _, _) => some (.ok value, w1)

/-- The `while combinator(walker).is_ok() {}` loop of `accepts_while`: keep
running the parser for its cursor side effect until it fails, returning the
walker as the failing run left it.  The Rust loop is unbounded, so it takes a
fuel bound; `none` covers fuel exhaustion (a potentially diverging run) as
well as a panicking run. -/
def whileOkLoop (p : Parser α) : Nat → FileWalker → Option FileWalker
  | 0, _ => none
  | fuel + 1, w =>
    match p w with
    | none => none
    | some (.ok _, w') => whileOkLoop p fuel w'
    | some (.error _, w') => some w'

/-- `accepts_while` from `src/parser/parsers/combinators.rs`: require one
success of `p`, keep running it until it fails, and return the span from the
start marker to the walker position after the loop. -/
def accepts_while (p : Parser α) (fuel : Nat) : Parser Span := fun w =>
  let start := w.get_marker
  match p w with
  | none => none
  | some (.error e, w') => some (.error e, w')
  | some (.ok _, w1) =>
    match whileOkLoop p fuel w1 with
    | none => none
    | some w2 => (w2.span_from_marker_to_here start).map (fun sp => (.ok sp, w2))

/-- Measuring device for stating properties of `whileOkLoop`: the walker
after `n` successful runs of `p` (and `none` if any of those runs fails or
panics). -/
def iterOks (p : Parser α) : Nat → FileWalker → Option FileWalker
  | 0, w => some w
  | n + 1, w =>
    match p w with
    | some (.ok _, w') => iterOks p n w'
    | _ => none

/-! ## Diagnostic renderer (`src/errors/display.rs`) -/

/-- Modelled from the spec: the severity enum referenced as
`crate::ErrorLevel` is declared in repository code outside `src/`; its
variant set `Error`/`Warning`/`Info` is fixed by the spec's severity list
(error/warning/info) and by the exhaustive `match` expressions over it in
`src/errors/display.rs`. -/
inductive ErrorLevel where
  | Error
  | Warning
  | Info
deriving DecidableEq, Repr

/-- `Note` from `src/errors/display.rs`. -/
structure Note where
  span : Span
  note : String
  error_level : ErrorLevel
deriving DecidableEq, Repr

/-- Stable insertion step for `sortByCmp`: an element is placed before the
first element it does not compare `gt` against, matching the stable
`Vec::sort_by`. -/
def insertByCmp (cmp : α → α → Ordering) (x : α) : List α → List α
  | [] => [x]
  | y :: ys => if cmp x y = .gt then y :: insertByCmp cmp x ys else x :: y :: ys

/-- Stable comparator sort, modelling Rust's stable `Vec::sort_by`. -/
def sortByCmp (cmp : α → α → Ordering) : List α → List α
  | [] => []
  | x :: xs => insertByCmp cmp x (sortByCmp cmp xs)

/-- The comparator of `ErrorRender::new`: ascending line, then descending
column. -/
def cmpNote (a b : Note) : Ordering :=
  match compare a.span.location.line b.span.location.line with
  | .eq => compare b.span.location.column a.span.location.column
  | o => o

/-- The comparator of `MultiNoteDisplay::new`: descending column. -/
def cmpColDesc (a b : Note) : Ordering :=
  compare b.span.location.column a.span.location.column

/-- Rust `str::split_inclusive('\n')`: pieces keep their terminating
newline; no empty trailing piece. -/
def splitInclusiveNl : List Char → List (List Char)
  | [] => []
  | c :: cs =>
    if c = '\n' then [c] :: splitInclusiveNl cs
    else
      match splitInclusiveNl cs with
      | [] => [[c]]
      | p :: ps => (c :: p) :: ps

/-- The per-line map of Rust `str::lines`: strip one trailing `'\n'`, and
only then one trailing `'\r'`. -/
def rustLineOf (piece : List Char) : List Char :=
  if piece.getLast? = some '\n' then
    let p := piece.dropLast
    if p.getLast? = some '\r' then p.dropLast else p
  else piece

/-- Rust `str::lines`. -/
def rustLines (s : List Char) : List (List Char) :=
  (splitInclusiveNl s).map rustLineOf

/-- One unit of renderer output, in emission order: each `writeln!` of a
source line (`LineDisplay`) is one `src` item, and each caret-underline row
(one `NoteDisplay`, or one row of a `MultiNoteDisplay`) is one `caret` item
carrying its padding column, caret count (`span.data.chars().count()`),
message, and severity.  Color escapes affect only the text of a row, never
which rows exist, and are not modelled. -/
inductive RenderItem where
  | header (level : ErrorLevel) (message : String) (primary : Location)
  | src (line : Nat) (data : List Char)
  | caret (column : Nat) (width : Nat) (message : String) (level : ErrorLevel)
deriving DecidableEq, Repr

/-- The caret row a single note produces (`NoteDisplay::fmt`, and one
iteration of `MultiNoteDisplay::fmt`). -/
def caretRowOf (n : Note) : RenderItem :=
  .caret n.span.location.column n.span.data.length n.note n.error_level

/-- `MultiNoteDisplay::new` + `fmt`: filter the full note list to the given
line, sort by descending column, and emit one caret row per note. -/
def multiNoteRows (notes : List Note) (line : Nat) : List RenderItem :=
  (sortByCmp cmpColDesc (notes.filter (fun v => v.span.location.line == line))).map caretRowOf

/-- The inner `for note in &self.notes` scan of `ErrorRender::fmt` for one
freshly printed source line: remember the first note anchored to the line;
on finding a second, emit the `MultiNoteDisplay` rows and break; if exactly
one was found, emit its single caret row. -/
def noteScanGo (allNotes : List Note) (L : Nat) :
    List Note → Option Note → List RenderItem
  | [], none => []
  | [], some n => [caretRowOf n]
  | n :: rest, acc =>
    if n.span.location.line = L then
      match acc with
      | none => noteScanGo allNotes L rest (some n)
      | some _ => multiNoteRows allNotes L
    else noteScanGo allNotes L rest acc

/-- Caret rows emitted right after printing source line `L`. -/
def lineNoteRows (notes : List Note) (L : Nat) : List RenderItem :=
  noteScanGo notes L notes none

/-- `RegionRender` as an already-enumerated list of `(line number, text)`
pairs: the iterator starts at the expanded span's location line and bumps the
line by one per yielded `str::lines` element. -/
def enumLines : Nat → List (List Char) → List (Nat × List Char)
  | _, [] => []
  | L, d :: ds => (L, d) :: enumLines (L + 1) ds

/-- `RegionRender::new(settings, note.span, walker, 1)` as used by
`ErrorRender::fmt` (radius hardcoded to 1). -/
def windowLines (walker : FileWalker) (sp : Span) :
    Except RunAbort (List (Nat × List Char)) :=
  (walker.expand_span sp 1).map (fun rsp => enumLines rsp.location.line (rustLines rsp.data))

/-- The inner `for line in current_renderer` loop of `ErrorRender::fmt`:
skip lines below the `next_line_needed` watermark; print the rest, each
followed by its caret rows, moving the watermark past each printed line. -/
def renderWindowLines (notes : List Note) :
    List (Nat × List Char) → Nat → List RenderItem × Nat
  | [], wm => ([], wm)
  | (L, d) :: rest, wm =>
    if L < wm then renderWindowLines notes rest wm
    else
      let tail := renderWindowLines notes rest (L + 1)
      (RenderItem.src L d :: (lineNoteRows notes L ++ tail.1), tail.2)

/-- The outer `for note in &self.notes` loop of `ErrorRender::fmt`,
threading the `next_line_needed` watermark. -/
def renderNotesGo (walker : FileWalker) (allNotes : List Note) :
    List Note → Nat → Except RunAbort (List RenderItem)
  | [], _ => .ok []
  | n :: rest, wm =>
    match windowLines walker n.span with
    | .error e => .error e
    | .ok lns =>
      let win := renderWindowLines allNotes lns wm
      match renderNotesGo walker allNotes rest win.2 with
      | .error e => .error e
      | .ok items => .ok (win.1 ++ items)

/-- The source/caret body of `ErrorRender::fmt`, given the (already sorted)
note list, starting from watermark `next_line_needed = 0`. -/
def renderBody (walker : FileWalker) (notes : List Note) :
    Except RunAbort (List RenderItem) :=
  renderNotesGo walker notes notes 0

/-- `ErrorRender::new` followed by `fmt`: sort the notes (ascending line,
descending column), emit the header, then the body. -/
def errorRenderFmt (level : ErrorLevel) (message : String) (primary : Location)
    (notes : List Note) (walker : FileWalker) : Except RunAbort (List RenderItem) :=
  let sorted := sortByCmp cmpNote notes
  (renderBody walker sorted).map (fun body => .header level message primary :: body)

/-- The line numbers of the source lines in an emitted trace, in emission
order. -/
def srcLineNums (items : List RenderItem) : List Nat :=
  items.filterMap fun it =>
    match it with
    | .src L _ => some L
    | _ => none

/-! ## Stating devices and concrete inputs used by the verification -/

/-- The characters returned by `n` consecutive `step` calls. -/
def stepChars : Nat → FileWalker → List (Option Char)
  | 0, _ => []
  | n + 1, w => (w.step).1 :: stepChars n (w.step).2

/-- The `(column, line)` positions at which `n` consecutive `step` calls
start. -/
def stepLocations : Nat → FileWalker → List (Nat × Nat)
  | 0, _ => []
  | n + 1, w => (w.column, w.line) :: stepLocations n (w.step).2

/-- The walker after `n` consecutive `step` calls. -/
def stepIter : Nat → FileWalker → FileWalker
  | 0, w => w
  | n + 1, w => stepIter n (w.step).2

/-- The two cursor-mutating operations of `FileWalker`. -/
inductive WalkOp where
  | stepOp
  | popOp (m : FileLocationMarker)
deriving DecidableEq, Repr

/-- Apply one cursor-mutating operation. -/
def applyOp (w : FileWalker) : WalkOp → FileWalker
  | .stepOp => (w.step).2
  | .popOp m => (w.pop_back m).2

/-- Apply a sequence of cursor-mutating operations. -/
def applyOps (w : FileWalker) : List WalkOp → FileWalker
  | [] => w
  | op :: ops => applyOps (applyOp w op) ops

/-- The padding column of a caret row (`0` for other items). -/
def caretColumn : RenderItem → Nat
  | .caret c _ _ _ => c
  | _ => 0

/-- Rust `char::is_ascii_uppercase`. -/
def isAsciiUpper (c : Char) : Bool := 'A' ≤ c && c ≤ 'Z'

/-- The input `"Mö\nbi\r\nus"` of the line/column accounting example. -/
def mobiusInput : List Char := ['M', 'ö', '\n', 'b', 'i', '\r', '\n', 'u', 's']

/-- A walker over `mobiusInput`. -/
def mobiusWalker : FileWalker := FileWalker.from_data mobiusInput "hello.txt"

/-- The input `"ABC\n DEF\nGHI\n JKL"` of the context-expansion example. -/
def abcInput : List Char :=
  ['A', 'B', 'C', '\n', ' ', 'D', 'E', 'F', '\n', 'G', 'H', 'I', '\n', ' ', 'J', 'K', 'L']

/-- A walker over `abcInput`. -/
def abcWalker : FileWalker := FileWalker.from_data abcInput "input"

/-- The span `"GH"` of `abcInput`, at byte offset 9 on zero-indexed line 2. -/
def ghSpan : Span := { index := 9, location := { column := 0, line := 2, filename := "input" }, data := ['G', 'H'] }

/-- The source `"x\nöy\nz"`: walking back a line from `"z"` steps down onto
byte offset 3, the middle of the two-byte `'ö'`. -/
def divergeInput : List Char := ['x', '\n', 'ö', 'y', '\n', 'z']

/-- A walker over `divergeInput`. -/
def divergeWalker : FileWalker := FileWalker.from_data divergeInput "f"

/-- The span `"z"` of `divergeInput`, at byte offset 6 on line 2. -/
def divergeSpan : Span := { index := 6, location := { column := 0, line := 2, filename := "f" }, data := ['z'] }

/-- The source `"é\né\né"`: walking back a line from the final `"é"` slices
`all_data[5..7]`, whose end lands in the middle of the two-byte `'é'`. -/
def faultInput : List Char := ['é', '\n', 'é', '\n', 'é']

/-- A walker over `faultInput`. -/
def faultWalker : FileWalker := FileWalker.from_data faultInput "f"

/-- The final `"é"` of `faultInput`, at byte offset 6 on line 2. -/
def faultSpan : Span := { index := 6, location := { column := 0, line := 2, filename := "f" }, data := ['é'] }

/-- The input `"Hello World!"` of the literal-matcher example. -/
def helloWorldInput : List Char := ['H', 'e', 'l', 'l', 'o', ' ', 'W', 'o', 'r', 'l', 'd', '!']

/-- The literal `"Hello"`. -/
def helloTag : List Char := ['H', 'e', 'l', 'l', 'o']

/-- The input `"World"` of the literal-matcher failure example. -/
def worldInput : List Char := ['W', 'o', 'r', 'l', 'd']

/-- The input `"HARmony"` of the repetition example. -/
def harmonyInput : List Char := ['H', 'A', 'R', 'm', 'o', 'n', 'y']

/-- The source `"ab\ncd\nef\ngh"` of the renderer example. -/
def renderSource : List Char := ['a', 'b', '\n', 'c', 'd', '\n', 'e', 'f', '\n', 'g', 'h']

/-- A walker over `renderSource`. -/
def renderWalker : FileWalker := FileWalker.from_data renderSource "input"

/-- A note on `"cd"` (line 1, column 0, byte offset 3) of `renderSource`. -/
def noteA : Note :=
  { span := { index := 3, location := { column := 0, line := 1, filename := "input" }, data := ['c', 'd'] },
    note := "first", error_level := .Error }

/-- A note on `"d"` (line 1, column 1, byte offset 4) of `renderSource`. -/
def noteB : Note :=
  { span := { index := 4, location := { column := 1, line := 1, filename := "input" }, data := ['d'] },
    note := "second", error_level := .Warning }

/-- A note on `"ef"` (line 2, column 0, byte offset 6) of `renderSource`,
whose one-line context window overlaps `noteA`/`noteB`'s. -/
def noteC : Note :=
  { span := { index := 6, location := { column := 0, line := 2, filename := "input" }, data := ['e', 'f'] },
    note := "third", error_level := .Info }

/-! ## Basic lemmas about byte offsets and the cursor -/

theorem isCharBoundary_zero (s : List Char) : isCharBoundary s 0 = true := by
  cases s <;> rfl

theorem dropBytes_zero (s : List Char) : dropBytes s 0 = s := by cases s <;> rfl

theorem step_eq_of_nil (w : FileWalker) (h : w.current_string = []) : w.step = (none, w) := by
  unfold FileWalker.step
  rw [h]

theorem step_eq_of_cons (w : FileWalker) (c : Char) (r : List Char)
    (h : w.current_string = c :: r) :
    w.step = (some c,
      { w with
        current_byte_index := w.current_byte_index + c.utf8Size,
        line := if c = '\n' then w.line + 1 else w.line,
        column := if c = '\n' then 0 else w.column + 1 }) := by
  unfold FileWalker.step
  rw [h]

theorem step_all_data (w : FileWalker) : (w.step).2.all_data = w.all_data := by
  cases h : w.current_string with
  | nil => rw [step_eq_of_nil w h]
  | cons c r => rw [step_eq_of_cons w c r h]

theorem step_filename (w : FileWalker) : (w.step).2.filename = w.filename := by
  cases h : w.current_string with
  | nil => rw [step_eq_of_nil w h]
  | cons c r => rw [step_eq_of_cons w c r h]

theorem step_index_le (w : FileWalker) :
    w.current_byte_index ≤ (w.step).2.current_byte_index := by
  cases h : w.current_string with
  | nil => rw [step_eq_of_nil w h]
  | cons c r => rw [step_eq_of_cons w c r h]; exact Nat.le_add_right _ _

theorem current_string_cons (w : FileWalker) (c : Char) (r : List Char)
    (h : w.current_string = c :: r) :
    dropBytes w.all_data w.current_byte_index = c :: r := by
  unfold FileWalker.current_string at h
  by_cases hge : w.current_byte_index ≥ utf8Len w.all_data
  · rw [if_pos hge] at h; exact absurd h (by simp)
  · rw [if_neg hge] at h; exact h

/-- Stepping over the character that starts at a boundary lands on the next
boundary. -/
theorem boundary_add (s : List Char) (i : Nat) (c : Char) (r : List Char)
    (hb : isCharBoundary s i = true) (hd : dropBytes s i = c :: r) :
    isCharBoundary s (i + c.utf8Size) = true := by
  induction s generalizing i with
  | nil =>
    rw [show dropBytes [] i = [] by cases i <;> rfl] at hd; exact absurd hd (by simp)
  | cons c0 cs ih =>
    have hc := Char.utf8Size_pos c
    cases i with
    | zero =>
      rw [dropBytes_zero] at hd
      have hc0 : c0 = c := (List.cons.injEq .. ▸ hd).1
      subst hc0
      rw [Nat.zero_add]
      obtain ⟨k, hk⟩ : ∃ k, c0.utf8Size = k + 1 := ⟨c0.utf8Size - 1, by omega⟩
      rw [hk, show isCharBoundary (c0 :: cs) (k + 1) =
          (if k + 1 < c0.utf8Size then false else isCharBoundary cs (k + 1 - c0.utf8Size)) from rfl,
        if_neg (by omega), show k + 1 - c0.utf8Size = 0 by omega]
      exact isCharBoundary_zero cs
    | succ j =>
      rw [show isCharBoundary (c0 :: cs) (j + 1) =
          (if j + 1 < c0.utf8Size then false else isCharBoundary cs (j + 1 - c0.utf8Size)) from rfl] at hb
      have hc0 := Char.utf8Size_pos c0
      by_cases hlt : j + 1 < c0.utf8Size
      · rw [if_pos hlt] at hb; exact absurd hb (by simp)
      · rw [if_neg hlt] at hb
        rw [show dropBytes (c0 :: cs) (j + 1) = dropBytes cs (j + 1 - c0.utf8Size) from rfl] at hd
        have hih := ih (j + 1 - c0.utf8Size) hb hd
        rw [show j + 1 + c.utf8Size = (j + c.utf8Size) + 1 by omega,
          show isCharBoundary (c0 :: cs) (j + c.utf8Size + 1) =
            (if j + c.utf8Size + 1 < c0.utf8Size then false
             else isCharBoundary cs (j + c.utf8Size + 1 - c0.utf8Size)) from rfl,
          if_neg (by omega),
          show j + c.utf8Size + 1 - c0.utf8Size = j + 1 - c0.utf8Size + c.utf8Size by omega]
        exact hih

theorem step_boundary (w : FileWalker)
    (hb : isCharBoundary w.all_data w.current_byte_index = true) :
    isCharBoundary (w.step).2.all_data (w.step).2.current_byte_index = true := by
  cases h : w.current_string with
  | nil => rw [step_eq_of_nil w h]; exact hb
  | cons c r =>
    rw [step_eq_of_cons w c r h]
    exact boundary_add w.all_data w.current_byte_index c r hb (current_string_cons w c r h)

theorem pop_back_boundary (w : FileWalker) (m : FileLocationMarker)
    (hb : isCharBoundary w.all_data w.current_byte_index = true) :
    isCharBoundary (w.pop_back m).2.all_data (w.pop_back m).2.current_byte_index = true := by
  unfold FileWalker.pop_back
  by_cases h : isCharBoundary w.all_data m.index
  · rw [if_pos h]; exact h
  · rw [if_neg h]; exact hb

/-- Rolling back to the marker of a well-formed cursor `w0`, from any cursor
over the same text, restores exactly `w0`. -/
theorem pop_back_restore (w w0 : FileWalker)
    (hd : w.all_data = w0.all_data) (hf : w.filename = w0.filename)
    (hb : isCharBoundary w0.all_data w0.current_byte_index = true) :
    w.pop_back w0.get_marker = (true, w0) := by
  unfold FileWalker.pop_back FileWalker.get_marker
  simp only [hd]
  rw [if_pos hb]
  cases w; cases w0
  simp_all

/-! ## Claim theorems -/

/-- C1: `step` consumes and returns the head character of the remaining
text, advances the byte offset by its UTF-8 length, increments the line and
resets the column to 0 on `'\n'`, and otherwise (including `'\r'`)
increments the column; on `"Mö\nbi\r\nus"` nine steps consume the nine
characters at locations (0,0) (1,0) (2,0) (0,1) (1,1) (2,1) (3,1) (0,2)
(1,2). -/
theorem c1_step_spec :
    (∀ w : FileWalker, (w.step).1 = w.current_string.head?) ∧
    (∀ (w : FileWalker) (c : Char), (w.step).1 = some c →
      (w.step).2.all_data = w.all_data ∧
      (w.step).2.current_byte_index = w.current_byte_index + c.utf8Size ∧
      (c = '\n' → (w.step).2.line = w.line + 1 ∧ (w.step).2.column = 0) ∧
      (c ≠ '\n' → (w.step).2.line = w.line ∧ (w.step).2.column = w.column + 1)) ∧
    stepChars 9 mobiusWalker =
      [some 'M', some 'ö', some '\n', some 'b', some 'i', some '\r', some '\n', some 'u', some 's'] ∧
    stepLocations 9 mobiusWalker =
      [(0, 0), (1, 0), (2, 0), (0, 1), (1, 1), (2, 1), (3, 1), (0, 2), (1, 2)] := by
  refine ⟨?_, ?_, by decide, by decide⟩
  · intro w
    cases h : w.current_string with
    | nil => rw [step_eq_of_nil w h]; rfl
    | cons c r => rw [step_eq_of_cons w c r h]; rfl
  · intro w c hc
    cases h : w.current_string with
    | nil => rw [step_eq_of_nil w h] at hc; exact absurd hc (by simp)
    | cons c0 r =>
      rw [step_eq_of_cons w c0 r h] at hc ⊢
      obtain rfl : c0 = c := by simpa using hc
      refine ⟨rfl, rfl, fun hnl => ?_, fun hnl => ?_⟩
      · simp [hnl]
      · simp [hnl]

/-- C1 witness: the conditional part of `c1_step_spec` instantiated at the
first step over `"Mö\nbi\r\nus"`. -/
theorem c1_step_spec_witness :
    ((mobiusWalker.step).1 = some 'M') ∧
    ((mobiusWalker.step).2.all_data = mobiusWalker.all_data ∧
      (mobiusWalker.step).2.current_byte_index = mobiusWalker.current_byte_index + 'M'.utf8Size ∧
      ('M' = '\n' → (mobiusWalker.step).2.line = mobiusWalker.line + 1 ∧ (mobiusWalker.step).2.column = 0) ∧
      ('M' ≠ '\n' → (mobiusWalker.step).2.line = mobiusWalker.line ∧
        (mobiusWalker.step).2.column = mobiusWalker.column + 1)) :=
  ⟨by decide, c1_step_spec.2.1 mobiusWalker 'M' (by decide)⟩

/-- C10: at or past the end of the source (`current_string` empty), `step`
returns no character and leaves the cursor state entirely unchanged, so any
number of further steps also leave it unchanged. -/
theorem c10_step_at_end (w : FileWalker) (h : w.current_string = []) :
    w.step = (none, w) ∧ ∀ n : Nat, stepIter n w = w := by
  refine ⟨step_eq_of_nil w h, fun n => ?_⟩
  induction n with
  | zero => rfl
  | succ k ih =>
    show stepIter k (w.step).2 = w
    rw [step_eq_of_nil w h]
    exact ih

/-- C10 witness: `c10_step_at_end` at the walker that has consumed all of
`"Mö\nbi\r\nus"`. -/
theorem c10_step_at_end_witness :
    (stepIter 9 mobiusWalker).current_string = [] ∧
    (stepIter 9 mobiusWalker).step = (none, stepIter 9 mobiusWalker) ∧
    stepIter 3 (stepIter 9 mobiusWalker) = stepIter 9 mobiusWalker := by
  refine ⟨by decide, ?_, ?_⟩
  · exact (c10_step_at_end (stepIter 9 mobiusWalker) (by decide)).1
  · exact (c10_step_at_end (stepIter 9 mobiusWalker) (by decide)).2 3

/-- C3: `pop_back` at a marker whose offset is not a character boundary
returns `false` and changes nothing; under the cursor boundary invariant,
`span_from_marker_to_here` returns `none` whenever the marker is off a
boundary or beyond the current position; and the boundary invariant is
preserved by every sequence of cursor-mutating operations. -/
theorem c3_boundary_safety :
    (∀ (w : FileWalker) (m : FileLocationMarker),
      isCharBoundary w.all_data m.index = false → w.pop_back m = (false, w)) ∧
    (∀ (w : FileWalker) (m : FileLocationMarker),
      isCharBoundary w.all_data w.current_byte_index = true →
      (isCharBoundary w.all_data m.index = false ∨ w.current_byte_index < m.index) →
      w.span_from_marker_to_here m = none) ∧
    (∀ (ops : List WalkOp) (w : FileWalker),
      isCharBoundary w.all_data w.current_byte_index = true →
      isCharBoundary (applyOps w ops).all_data (applyOps w ops).current_byte_index = true) := by
  refine ⟨?_, ?_, ?_⟩
  · intro w m h
    unfold FileWalker.pop_back
    rw [if_neg (by simp [h])]
  · intro w m hwb hm
    have hne : m.index ≠ w.current_byte_index := by
      rcases hm with h | h
      · intro he; rw [he, hwb] at h; exact absurd h (by simp)
      · omega
    unfold FileWalker.span_from_marker_to_here
    rw [if_neg hne, if_pos]
    rcases hm with h | h
    · exact Or.inl (by simp [h])
    · exact Or.inr h
  · intro ops
    induction ops with
    | nil => intro w hb; exact hb
    | cons op rest ih =>
      intro w hb
      show isCharBoundary (applyOps (applyOp w op) rest).all_data
        (applyOps (applyOp w op) rest).current_byte_index = true
      apply ih
      cases op with
      | stepOp => exact step_boundary w hb
      | popOp m => exact pop_back_boundary w m hb

/-- C3 witness: `c3_boundary_safety` exercised at offset 2 of
`"Mö\nbi\r\nus"`, the middle of the two-byte `'ö'`. -/
theorem c3_boundary_safety_witness :
    (isCharBoundary mobiusWalker.all_data 2 = false ∧
      mobiusWalker.pop_back ⟨2, 0, 0⟩ = (false, mobiusWalker)) ∧
    ((stepIter 2 mobiusWalker).span_from_marker_to_here ⟨2, 0, 0⟩ = none) ∧
    (isCharBoundary (applyOps mobiusWalker [.stepOp, .stepOp, .popOp ⟨2, 0, 0⟩, .stepOp]).all_data
      (applyOps mobiusWalker [.stepOp, .stepOp, .popOp ⟨2, 0, 0⟩, .stepOp]).current_byte_index = true) := by
  refine ⟨⟨by decide, ?_⟩, ?_, ?_⟩
  · exact c3_boundary_safety.1 mobiusWalker ⟨2, 0, 0⟩ (by decide)
  · exact c3_boundary_safety.2.1 (stepIter 2 mobiusWalker) ⟨2, 0, 0⟩ (by decide) (Or.inl (by decide))
  · exact c3_boundary_safety.2.2 [.stepOp, .stepOp, .popOp ⟨2, 0, 0⟩, .stepOp] mobiusWalker (by decide)

/-- C4: on the cited example source `"ABC\n DEF\nGHI\n JKL"` with the span
`"GH"` on line 2, `expand_span` does return exactly line `"GHI"` for radius
0, lines 1–3 for radius 1, and lines 0–3 for radius 2, each at column 0 of
the first included line; but the claim's universal part fails: on the
source `"é\né\né"` with the span on the final `"é"` (line 2) and radius 1,
the backward scan slices `all_data[5..7]`, whose end is inside the two-byte
`'é'`, so the Rust code panics instead of returning the clamped span the
claim describes. -/
theorem c4_expand_span_example_and_fault :
    abcWalker.expand_span ghSpan 0 =
      .ok { index := 9, location := { column := 0, line := 2, filename := "input" },
            data := ['G', 'H', 'I'] } ∧
    abcWalker.expand_span ghSpan 1 =
      .ok { index := 4, location := { column := 0, line := 1, filename := "input" },
            data := [' ', 'D', 'E', 'F', '\n', 'G', 'H', 'I', '\n', ' ', 'J', 'K', 'L'] } ∧
    abcWalker.expand_span ghSpan 2 =
      .ok { index := 0, location := { column := 0, line := 0, filename := "input" },
            data := abcInput } ∧
    faultWalker.expand_span faultSpan 1 = .error .fault := by
  refine ⟨by rfl, by rfl, by rfl, by rfl⟩

/-- C5: `expand_span` does not always run to completion: on the source
`"x\nöy\nz"` with the span `"z"` (line 2) and radius 1, the backward scan
reaches byte offset 3 — the middle of the two-byte `'ö'` — where the
empty-bodied loop `while current_index > 0 &&
!self.all_data.is_char_boundary(current_index) {}` spins forever. -/
theorem c5_expand_span_diverges :
    divergeWalker.expand_span divergeSpan 1 = .error .diverge := by
  rfl

theorem span_from_marker_some (w : FileWalker) (m : FileLocationMarker)
    (hb : isCharBoundary w.all_data m.index = true)
    (hle : m.index ≤ w.current_byte_index) :
    ∃ sp : Span, w.span_from_marker_to_here m = some sp := by
  unfold FileWalker.span_from_marker_to_here
  by_cases he : m.index = w.current_byte_index
  · rw [if_pos he]; exact ⟨_, rfl⟩
  · rw [if_neg he, if_neg]
    · exact ⟨_, rfl⟩
    · push_neg
      constructor
      · simp [hb]
      · omega

theorem tagGo_nil (full : List Char) (start : FileLocationMarker) (w : FileWalker) :
    tagGo full start [] w = (w.span_from_marker_to_here start).map (fun sp => (.ok sp, w)) := rfl

theorem tagGo_cons (full : List Char) (start : FileLocationMarker) (c : Char)
    (cs : List Char) (w : FileWalker) :
    tagGo full start (c :: cs) w =
      if (w.step).1 = some c then tagGo full start cs (w.step).2
      else
        match (((w.step).2.pop_back start).2).get_location_of_marker start with
        | none => none
        | some loc => some (.error ⟨loc, .ExpectedTag full⟩, ((w.step).2.pop_back start).2) := rfl

theorem get_location_of_marker_self (w w0 : FileWalker) (hd : w.all_data = w0.all_data)
    (hf : w.filename = w0.filename)
    (hb : isCharBoundary w0.all_data w0.current_byte_index = true) :
    w.get_location_of_marker w0.get_marker = some w0.current_location := by
  unfold FileWalker.get_location_of_marker FileWalker.get_marker FileWalker.current_location
  simp only [hd, hf]
  rw [if_pos hb]

theorem tagGo_spec (full : List Char) (w0 : FileWalker)
    (hb0 : isCharBoundary w0.all_data w0.current_byte_index = true) :
    ∀ (s : List Char) (w : FileWalker),
      w.all_data = w0.all_data → w.filename = w0.filename →
      w0.current_byte_index ≤ w.current_byte_index →
      (tagGo full w0.get_marker s w =
        some (.error ⟨w0.current_location, .ExpectedTag full⟩, w0)) ∨
      (∃ sp w', tagGo full w0.get_marker s w = some (.ok sp, w')) := by
  intro s
  induction s with
  | nil =>
    intro w hdat hfn hge
    right
    obtain ⟨sp, hsp⟩ := span_from_marker_some w w0.get_marker
      (by rw [hdat]; exact hb0) (by exact hge)
    exact ⟨sp, w, by rw [tagGo_nil, hsp]; rfl⟩
  | cons c cs ih =>
    intro w hdat hfn hge
    rw [tagGo_cons]
    by_cases hc : (w.step).1 = some c
    · rw [if_pos hc]
      exact ih (w.step).2 (by rw [step_all_data, hdat]) (by rw [step_filename, hfn])
        (le_trans hge (step_index_le w))
    · rw [if_neg hc]
      have hpop : ((w.step).2).pop_back w0.get_marker = (true, w0) :=
        pop_back_restore (w.step).2 w0 (by rw [step_all_data, hdat])
          (by rw [step_filename, hfn]) hb0
      rw [hpop]
      rw [get_location_of_marker_self w0 w0 rfl rfl hb0]
      exact Or.inl rfl

/-- C7: the literal matcher is atomic — for every tag text and every cursor
satisfying the boundary invariant, `tag` either fails with `ExpectedTag`
located at the attempt's start leaving the cursor unchanged, or succeeds;
`tag "Hello"` on `"Hello World!"` succeeds with span data `"Hello"` at
(0,0) leaving `" World!"`, and on `"World"` fails with
`ExpectedTag("Hello")` at (0,0) with the cursor untouched. -/
theorem c7_tag_spec :
    (∀ (s : List Char) (w : FileWalker),
      isCharBoundary w.all_data w.current_byte_index = true →
      (tag s w = some (.error ⟨w.current_location, .ExpectedTag s⟩, w)) ∨
      (∃ sp w', tag s w = some (.ok sp, w'))) ∧
    (tag helloTag (FileWalker.from_data helloWorldInput "test.txt") =
      some (.ok { index := 0, location := { column := 0, line := 0, filename := "test.txt" },
                  data := helloTag },
            { all_data := helloWorldInput, filename := "test.txt",
              current_byte_index := 5, column := 5, line := 0 })) ∧
    (({ all_data := helloWorldInput, filename := "test.txt",
        current_byte_index := 5, column := 5, line := 0 } : FileWalker).current_string =
      [' ', 'W', 'o', 'r', 'l', 'd', '!']) ∧
    (tag helloTag (FileWalker.from_data worldInput "test.txt") =
      some (.error ⟨{ column := 0, line := 0, filename := "test.txt" }, .ExpectedTag helloTag⟩,
            FileWalker.from_data worldInput "test.txt")) := by
  refine ⟨?_, by rfl, by decide, by rfl⟩
  intro s w hb
  exact tagGo_spec s w hb s w rfl rfl le_rfl


/-- C7 witness: the general disjunct of `c7_tag_spec` at `tag "Hello"` run
on `"World"`. -/
theorem c7_tag_spec_witness :
    (isCharBoundary (FileWalker.from_data worldInput "test.txt").all_data
      (FileWalker.from_data worldInput "test.txt").current_byte_index = true) ∧
    ((tag helloTag (FileWalker.from_data worldInput "test.txt") =
        some (.error ⟨(FileWalker.from_data worldInput "test.txt").current_location,
              .ExpectedTag helloTag⟩, FileWalker.from_data worldInput "test.txt")) ∨
      (∃ sp w', tag helloTag (FileWalker.from_data worldInput "test.txt") =
        some (.ok sp, w'))) :=
  ⟨by decide, c7_tag_spec.1 helloTag (FileWalker.from_data worldInput "test.txt") (by decide)⟩

/-- C2: whenever `pair` (or `triple`) fails because a component after the
first fails, the cursor is rolled back to the marker captured before the
first component ran — the caller observes the original cursor state — and
the failing component's error is propagated unchanged. -/
theorem c2_pair_triple_rollback :
    (∀ {A B : Type} (p1 : Parser A) (p2 : Parser B) (w w1 w2 : FileWalker)
      (a : A) (e : ParsingError),
      p1 w = some (.ok a, w1) → p2 w1 = some (.error e, w2) →
      w2.all_data = w.all_data → w2.filename = w.filename →
      isCharBoundary w.all_data w.current_byte_index = true →
      pair p1 p2 w = some (.error e, w)) ∧
    (∀ {A B C : Type} (p1 : Parser A) (p2 : Parser B) (p3 : Parser C)
      (w w1 w2 : FileWalker) (a : A) (e : ParsingError),
      p1 w = some (.ok a, w1) → p2 w1 = some (.error e, w2) →
      w2.all_data = w.all_data → w2.filename = w.filename →
      isCharBoundary w.all_data w.current_byte_index = true →
      triple p1 p2 p3 w = some (.error e, w)) ∧
    (∀ {A B C : Type} (p1 : Parser A) (p2 : Parser B) (p3 : Parser C)
      (w w1 w2 w3 : FileWalker) (a : A) (b : B) (e : ParsingError),
      p1 w = some (.ok a, w1) → p2 w1 = some (.ok b, w2) → p3 w2 = some (.error e, w3) →
      w3.all_data = w.all_data → w3.filename = w.filename →
      isCharBoundary w.all_data w.current_byte_index = true →
      triple p1 p2 p3 w = some (.error e, w)) := by
  refine ⟨?_, ?_, ?_⟩
  · intro A B p1 p2 w w1 w2 a e h1 h2 hd hf hb
    simp only [pair, h1, h2, pop_back_restore w2 w hd hf hb]
  · intro A B C p1 p2 p3 w w1 w2 a e h1 h2 hd hf hb
    simp only [triple, h1, h2, pop_back_restore w2 w hd hf hb]
  · intro A B C p1 p2 p3 w w1 w2 w3 a b e h1 h2 h3 hd hf hb
    simp only [triple, h1, h2, h3, pop_back_restore w3 w hd hf hb]

/-- C2 witness: all three rollback cases of `c2_pair_triple_rollback`
instantiated with single-character `tag` parsers. -/
theorem c2_pair_triple_rollback_witness :
    (pair (tag ['a']) (tag ['b']) (FileWalker.from_data ['a', 'c'] "in") =
      some (.error ⟨{ column := 1, line := 0, filename := "in" }, .ExpectedTag ['b']⟩,
            FileWalker.from_data ['a', 'c'] "in")) ∧
    (triple (tag ['a']) (tag ['b']) (tag ['c']) (FileWalker.from_data ['a', 'x'] "in") =
      some (.error ⟨{ column := 1, line := 0, filename := "in" }, .ExpectedTag ['b']⟩,
            FileWalker.from_data ['a', 'x'] "in")) ∧
    (triple (tag ['a']) (tag ['b']) (tag ['c']) (FileWalker.from_data ['a', 'b', 'x'] "in") =
      some (.error ⟨{ column := 2, line := 0, filename := "in" }, .ExpectedTag ['c']⟩,
            FileWalker.from_data ['a', 'b', 'x'] "in")) := by
  refine ⟨?_, ?_, ?_⟩
  · exact c2_pair_triple_rollback.1 (tag ['a']) (tag ['b'])
      (FileWalker.from_data ['a', 'c'] "in")
      { all_data := ['a', 'c'], filename := "in", current_byte_index := 1, column := 1, line := 0 }
      { all_data := ['a', 'c'], filename := "in", current_byte_index := 1, column := 1, line := 0 }
      { index := 0, location := { column := 0, line := 0, filename := "in" }, data := ['a'] }
      ⟨{ column := 1, line := 0, filename := "in" }, .ExpectedTag ['b']⟩
      (by rfl) (by rfl) (by rfl) (by rfl) (by decide)
  · exact c2_pair_triple_rollback.2.1 (tag ['a']) (tag ['b']) (tag ['c'])
      (FileWalker.from_data ['a', 'x'] "in")
      { all_data := ['a', 'x'], filename := "in", current_byte_index := 1, column := 1, line := 0 }
      { all_data := ['a', 'x'], filename := "in", current_byte_index := 1, column := 1, line := 0 }
      { index := 0, location := { column := 0, line := 0, filename := "in" }, data := ['a'] }
      ⟨{ column := 1, line := 0, filename := "in" }, .ExpectedTag ['b']⟩
      (by rfl) (by rfl) (by rfl) (by rfl) (by decide)
  · exact c2_pair_triple_rollback.2.2 (tag ['a']) (tag ['b']) (tag ['c'])
      (FileWalker.from_data ['a', 'b', 'x'] "in")
      { all_data := ['a', 'b', 'x'], filename := "in", current_byte_index := 1, column := 1, line := 0 }
      { all_data := ['a', 'b', 'x'], filename := "in", current_byte_index := 2, column := 2, line := 0 }
      { all_data := ['a', 'b', 'x'], filename := "in", current_byte_index := 2, column := 2, line := 0 }
      { index := 0, location := { column := 0, line := 0, filename := "in" }, data := ['a'] }
      { index := 1, location := { column := 1, line := 0, filename := "in" }, data := ['b'] }
      ⟨{ column := 2, line := 0, filename := "in" }, .ExpectedTag ['c']⟩
      (by rfl) (by rfl) (by rfl) (by rfl) (by rfl) (by decide)

/-- C6: `but_not(p, q)` runs `p`; on success it re-runs `q` on a fresh
cursor scoped to exactly the text `p` consumed.  If `q` succeeds and its
consumed span equals that whole text, `but_not` fails with
`InverseFailedGot(consumed text)` at `p`'s start while the outer cursor
stays advanced past `p`'s match; if `q` consumes less, or fails, `p`'s
result is returned as-is. -/
theorem c6_but_not_spec :
    (∀ {A B : Type} (p : Parser A) (q : Parser B) (w w1 wq : FileWalker)
      (a : A) (b : B) (sp sp2 : Span),
      p w = some (.ok a, w1) →
      w1.span_from_marker_to_here w.get_marker = some sp →
      q (FileWalker.from_span sp) = some (.ok b, wq) →
      wq.span_from_marker_to_here (FileWalker.from_span sp).get_marker = some sp2 →
      sp2.data = sp.data →
      w1.all_data = w.all_data → w1.filename = w.filename →
      isCharBoundary w.all_data w.current_byte_index = true →
      but_not p q w =
        some (.error ⟨w.current_location, .InverseFailedGot sp.data⟩, w1)) ∧
    (∀ {A B : Type} (p : Parser A) (q : Parser B) (w w1 wq : FileWalker)
      (a : A) (b : B) (sp sp2 : Span),
      p w = some (.ok a, w1) →
      w1.span_from_marker_to_here w.get_marker = some sp →
      q (FileWalker.from_span sp) = some (.ok b, wq) →
      wq.span_from_marker_to_here (FileWalker.from_span sp).get_marker = some sp2 →
      sp2.data ≠ sp.data →
      but_not p q w = some (.ok a, w1)) ∧
    (∀ {A B : Type} (p : Parser A) (q : Parser B) (w w1 wq : FileWalker)
      (a : A) (e : ParsingError) (sp : Span),
      p w = some (.ok a, w1) →
      w1.span_from_marker_to_here w.get_marker = some sp →
      q (FileWalker.from_span sp) = some (.error e, wq) →
      but_not p q w = some (.ok a, w1)) := by
  refine ⟨?_, ?_, ?_⟩
  · intro A B p q w w1 wq a b sp sp2 h1 h2 h3 h4 h5 hd hf hb
    have hloc := get_location_of_marker_self w1 w hd hf hb
    simp only [but_not, h1, h2, h3, h4, if_pos h5, hloc]
  · intro A B p q w w1 wq a b sp sp2 h1 h2 h3 h4 h5
    simp only [but_not, h1, h2, h3, h4, if_neg h5]
  · intro A B p q w w1 wq a e sp h1 h2 h3
    simp only [but_not, h1, h2, h3]

/-- C6 witness: all three branches of `c6_but_not_spec` with concrete `tag`
parsers on `"abc"`. -/
theorem c6_but_not_spec_witness :
    (but_not (tag ['a', 'b']) (tag ['a', 'b']) (FileWalker.from_data ['a', 'b', 'c'] "in") =
      some (.error ⟨{ column := 0, line := 0, filename := "in" }, .InverseFailedGot ['a', 'b']⟩,
        { all_data := ['a', 'b', 'c'], filename := "in", current_byte_index := 2, column := 2, line := 0 })) ∧
    (but_not (tag ['a', 'b']) (tag ['a']) (FileWalker.from_data ['a', 'b', 'c'] "in") =
      some (.ok { index := 0, location := { column := 0, line := 0, filename := "in" }, data := ['a', 'b'] },
        { all_data := ['a', 'b', 'c'], filename := "in", current_byte_index := 2, column := 2, line := 0 })) ∧
    (but_not (tag ['a', 'b']) (tag ['z']) (FileWalker.from_data ['a', 'b', 'c'] "in") =
      some (.ok { index := 0, location := { column := 0, line := 0, filename := "in" }, data := ['a', 'b'] },
        { all_data := ['a', 'b', 'c'], filename := "in", current_byte_index := 2, column := 2, line := 0 })) := by
  refine ⟨?_, ?_, ?_⟩
  · exact c6_but_not_spec.1 (tag ['a', 'b']) (tag ['a', 'b'])
      (FileWalker.from_data ['a', 'b', 'c'] "in")
      { all_data := ['a', 'b', 'c'], filename := "in", current_byte_index := 2, column := 2, line := 0 }
      { all_data := ['a', 'b'], filename := "in", current_byte_index := 2, column := 2, line := 0 }
      { index := 0, location := { column := 0, line := 0, filename := "in" }, data := ['a', 'b'] }
      { index := 0, location := { column := 0, line := 0, filename := "in" }, data := ['a', 'b'] }
      { index := 0, location := { column := 0, line := 0, filename := "in" }, data := ['a', 'b'] }
      { index := 0, location := { column := 0, line := 0, filename := "in" }, data := ['a', 'b'] }
      (by rfl) (by rfl) (by rfl) (by rfl) (by rfl) (by rfl) (by rfl) (by decide)
  · exact c6_but_not_spec.2.1 (tag ['a', 'b']) (tag ['a'])
      (FileWalker.from_data ['a', 'b', 'c'] "in")
      { all_data := ['a', 'b', 'c'], filename := "in", current_byte_index := 2, column := 2, line := 0 }
      { all_data := ['a', 'b'], filename := "in", current_byte_index := 1, column := 1, line := 0 }
      { index := 0, location := { column := 0, line := 0, filename := "in" }, data := ['a', 'b'] }
      { index := 0, location := { column := 0, line := 0, filename := "in" }, data := ['a'] }
      { index := 0, location := { column := 0, line := 0, filename := "in" }, data := ['a', 'b'] }
      { index := 0, location := { column := 0, line := 0, filename := "in" }, data := ['a'] }
      (by rfl) (by rfl) (by rfl) (by rfl) (by decide)
  · exact c6_but_not_spec.2.2 (tag ['a', 'b']) (tag ['z'])
      (FileWalker.from_data ['a', 'b', 'c'] "in")
      { all_data := ['a', 'b', 'c'], filename := "in", current_byte_index := 2, column := 2, line := 0 }
      { all_data := ['a', 'b'], filename := "in", current_byte_index := 0, column := 0, line := 0 }
      { index := 0, location := { column := 0, line := 0, filename := "in" }, data := ['a', 'b'] }
      ⟨{ column := 0, line := 0, filename := "in" }, .ExpectedTag ['z']⟩
      { index := 0, location := { column := 0, line := 0, filename := "in" }, data := ['a', 'b'] }
      (by rfl) (by rfl) (by rfl)

theorem takeBytes_zero (s : List Char) : takeBytes s 0 = [] := by cases s <;> rfl

/-- The `while combinator(walker).is_ok() {}` loop exits with walker `w2`
exactly when some number of successful runs below the fuel bound is followed
by a failing run that leaves the walker at `w2`. -/
theorem whileOkLoop_iff {A : Type} (p : Parser A) :
    ∀ (fuel : Nat) (w1 w2 : FileWalker),
      whileOkLoop p fuel w1 = some w2 ↔
      ∃ n, n < fuel ∧ ∃ w3 e, iterOks p n w1 = some w3 ∧ p w3 = some (.error e, w2) := by
  intro fuel
  induction fuel with
  | zero =>
    intro w1 w2
    constructor
    · intro h; exact absurd h (by simp [whileOkLoop])
    · rintro ⟨n, hn, -⟩; omega
  | succ f ih =>
    intro w1 w2
    constructor
    · intro h
      simp only [whileOkLoop] at h
      cases hp : p w1 with
      | none => rw [hp] at h; exact absurd h (by simp)
      | some res =>
        obtain ⟨r, w'⟩ := res
        cases r with
        | ok v =>
          rw [hp] at h
          obtain ⟨n, hn, w3, e, hiter, hfail⟩ := (ih w' w2).1 h
          exact ⟨n + 1, by omega, w3, e, by simp only [iterOks, hp]; exact hiter, hfail⟩
        | error e =>
          rw [hp] at h
          obtain rfl : w' = w2 := by simpa using h
          exact ⟨0, by omega, w1, e, rfl, hp⟩
    · rintro ⟨n, hn, w3, e, hiter, hfail⟩
      cases n with
      | zero =>
        obtain rfl : w1 = w3 := by simpa [iterOks] using hiter
        simp only [whileOkLoop, hfail]
      | succ m =>
        simp only [iterOks] at hiter
        cases hp : p w1 with
        | none => rw [hp] at hiter; exact absurd hiter (by simp)
        | some res =>
          obtain ⟨r, w'⟩ := res
          cases r with
          | ok v =>
            rw [hp] at hiter
            simp only [whileOkLoop, hp]
            exact (ih w' w2).2 ⟨m, by omega, w3, e, hiter, hfail⟩
          | error e' => rw [hp] at hiter; exact absurd hiter (by simp)

/-- C9 counterexample: the claim's span — "from the position before the
first run to the position after the last successful run" — is wrong for a
parser whose failing run leaves the cursor advanced.  With
`p = but_not(take_if(is_ascii_uppercase), tag("X"))` on `"AXB"`, the only
successful run of `p` consumes `"A"` (ending at byte offset 1); the second
run fails with `InverseFailedGot("X")` but leaves the cursor at byte offset
2 (`but_not`'s documented asymmetry), and `accepts_while(p)` returns the
span `"AX"`, not the successful runs' slice `"A"`. -/
theorem c9_accepts_while_counterexample :
    ((but_not (take_if isAsciiUpper "uppercase") (tag ['X']))
        (FileWalker.from_data ['A', 'X', 'B'] "in") =
      some (.ok { index := 0, location := { column := 0, line := 0, filename := "in" },
                  data := ['A'] },
        { all_data := ['A', 'X', 'B'], filename := "in",
          current_byte_index := 1, column := 1, line := 0 })) ∧
    ((but_not (take_if isAsciiUpper "uppercase") (tag ['X']))
        { all_data := ['A', 'X', 'B'], filename := "in",
          current_byte_index := 1, column := 1, line := 0 } =
      some (.error ⟨{ column := 1, line := 0, filename := "in" }, .InverseFailedGot ['X']⟩,
        { all_data := ['A', 'X', 'B'], filename := "in",
          current_byte_index := 2, column := 2, line := 0 })) ∧
    (accepts_while (but_not (take_if isAsciiUpper "uppercase") (tag ['X'])) 10
        (FileWalker.from_data ['A', 'X', 'B'] "in") =
      some (.ok { index := 0, location := { column := 0, line := 0, filename := "in" },
                  data := ['A', 'X'] },
        { all_data := ['A', 'X', 'B'], filename := "in",
          current_byte_index := 2, column := 2, line := 0 })) ∧
    sliceBytes ['A', 'X', 'B'] 0 1 = ['A'] ∧
    (['A', 'X'] : List Char) ≠ ['A'] := by
  refine ⟨by rfl, by rfl, by rfl, by rfl, by decide⟩

/-- C9 (amended): `accepts_while(p)` fails with `p`'s own error if the very
first run of `p` fails; otherwise it keeps running `p` until a run fails
(conjunct two characterizes the loop) and succeeds with the span from the
position before the first run to the position where the failing run left
the cursor, whose data is exactly that consumed slice of the source.  When
the failing run restores the cursor — as every library leaf parser does,
but `but_not`'s inverse-fired failure does not — that position is the one
after the last successful run (the instance `w2 = w3` below). -/
theorem c9_accepts_while_spec :
    (∀ {A : Type} (p : Parser A) (fuel : Nat) (w w' : FileWalker) (e : ParsingError),
      p w = some (.error e, w') →
      accepts_while p fuel w = some (.error e, w')) ∧
    (∀ {A : Type} (p : Parser A) (fuel : Nat) (w1 w2 : FileWalker),
      whileOkLoop p fuel w1 = some w2 ↔
      ∃ n, n < fuel ∧ ∃ w3 e, iterOks p n w1 = some w3 ∧ p w3 = some (.error e, w2)) ∧
    (∀ {A : Type} (p : Parser A) (fuel n : Nat) (w w1 w2 w3 : FileWalker) (a : A)
      (e : ParsingError) (sp : Span),
      p w = some (.ok a, w1) →
      iterOks p n w1 = some w3 →
      p w3 = some (.error e, w2) →
      n < fuel →
      w2.span_from_marker_to_here w.get_marker = some sp →
      w2.all_data = w.all_data →
      accepts_while p fuel w = some (.ok sp, w2) ∧
      sp.data = sliceBytes w.all_data w.current_byte_index w2.current_byte_index) := by
  refine ⟨?_, ?_, ?_⟩
  · intro A p fuel w w' e h
    simp only [accepts_while, h]
  · intro A p fuel w1 w2
    exact whileOkLoop_iff p fuel w1 w2
  · intro A p fuel n w w1 w2 w3 a e sp h0 hiter hfail hfuel hsp hd
    have hloop : whileOkLoop p fuel w1 = some w2 :=
      (whileOkLoop_iff p fuel w1 w2).2 ⟨n, hfuel, w3, e, hiter, hfail⟩
    constructor
    · simp only [accepts_while, h0, hloop, hsp]; rfl
    · unfold FileWalker.span_from_marker_to_here at hsp
      by_cases he : (w.get_marker).index = w2.current_byte_index
      · rw [if_pos he] at hsp
        have hrec := Option.some.inj hsp
        rw [← hrec]
        simp only [FileWalker.get_marker] at he
        simp [sliceBytes, ← he, takeBytes_zero]
      · rw [if_neg he] at hsp
        by_cases hc : ¬ isCharBoundary w2.all_data (w.get_marker).index ∨
            (w.get_marker).index > w2.current_byte_index
        · rw [if_pos hc] at hsp; exact absurd hsp (by simp)
        · rw [if_neg hc] at hsp
          have hrec := Option.some.inj hsp
          rw [← hrec]
          simp only [hd]
          rfl

/-- C9 witness: all three conjuncts of `c9_accepts_while_spec` at
`take_if(is_ascii_uppercase)` over `"bALCONY"` and `"HARmony"`. -/
theorem c9_accepts_while_spec_witness :
    (accepts_while (take_if isAsciiUpper "uppercase") 10
        (FileWalker.from_data ['b', 'A', 'L', 'C', 'O', 'N', 'Y'] "input") =
      some (.error ⟨{ column := 0, line := 0, filename := "input" }, .ExpectedOneOfKind "uppercase"⟩,
        FileWalker.from_data ['b', 'A', 'L', 'C', 'O', 'N', 'Y'] "input")) ∧
    (whileOkLoop (take_if isAsciiUpper "uppercase") 10
        { all_data := harmonyInput, filename := "input", current_byte_index := 1, column := 1, line := 0 } =
      some { all_data := harmonyInput, filename := "input", current_byte_index := 3, column := 3, line := 0 } ↔
      ∃ n, n < 10 ∧ ∃ w3 e, iterOks (take_if isAsciiUpper "uppercase") n
        { all_data := harmonyInput, filename := "input", current_byte_index := 1, column := 1, line := 0 } = some w3 ∧
        take_if isAsciiUpper "uppercase" w3 = some (.error e,
          { all_data := harmonyInput, filename := "input", current_byte_index := 3, column := 3, line := 0 })) ∧
    (accepts_while (take_if isAsciiUpper "uppercase") 10 (FileWalker.from_data harmonyInput "input") =
      some (.ok { index := 0, location := { column := 0, line := 0, filename := "input" }, data := ['H', 'A', 'R'] },
        { all_data := harmonyInput, filename := "input", current_byte_index := 3, column := 3, line := 0 }) ∧
      (({ index := 0, location := { column := 0, line := 0, filename := "input" },
          data := ['H', 'A', 'R'] } : Span)).data =
        sliceBytes (FileWalker.from_data harmonyInput "input").all_data
          (FileWalker.from_data harmonyInput "input").current_byte_index 3) := by
  refine ⟨?_, ?_, ?_⟩
  · exact c9_accepts_while_spec.1 (take_if isAsciiUpper "uppercase") 10
      (FileWalker.from_data ['b', 'A', 'L', 'C', 'O', 'N', 'Y'] "input")
      (FileWalker.from_data ['b', 'A', 'L', 'C', 'O', 'N', 'Y'] "input")
      ⟨{ column := 0, line := 0, filename := "input" }, .ExpectedOneOfKind "uppercase"⟩
      (by rfl)
  · exact c9_accepts_while_spec.2.1 (take_if isAsciiUpper "uppercase") 10
      { all_data := harmonyInput, filename := "input", current_byte_index := 1, column := 1, line := 0 }
      { all_data := harmonyInput, filename := "input", current_byte_index := 3, column := 3, line := 0 }
  · exact c9_accepts_while_spec.2.2 (take_if isAsciiUpper "uppercase") 10 2
      (FileWalker.from_data harmonyInput "input")
      { all_data := harmonyInput, filename := "input", current_byte_index := 1, column := 1, line := 0 }
      { all_data := harmonyInput, filename := "input", current_byte_index := 3, column := 3, line := 0 }
      { all_data := harmonyInput, filename := "input", current_byte_index := 3, column := 3, line := 0 }
      { index := 0, location := { column := 0, line := 0, filename := "input" }, data := ['H'] }
      ⟨{ column := 3, line := 0, filename := "input" }, .ExpectedOneOfKind "uppercase"⟩
      { index := 0, location := { column := 0, line := 0, filename := "input" }, data := ['H', 'A', 'R'] }
      (by rfl) (by rfl) (by rfl) (by omega) (by rfl) (by rfl)

theorem srcLineNums_append (a b : List RenderItem) :
    srcLineNums (a ++ b) = srcLineNums a ++ srcLineNums b := by
  unfold srcLineNums
  exact List.filterMap_append a b _

theorem srcLineNums_map_caretRowOf (l : List Note) :
    srcLineNums (l.map caretRowOf) = [] := by
  induction l with
  | nil => rfl
  | cons n rest ih =>
    simp only [List.map_cons]
    show srcLineNums (caretRowOf n :: rest.map caretRowOf) = []
    unfold srcLineNums at ih ⊢
    simp only [List.filterMap_cons]
    rw [show (match caretRowOf n with
        | RenderItem.src L _ => some L
        | _ => none) = (none : Option Nat) from rfl]
    exact ih

theorem srcLineNums_multiNoteRows (notes : List Note) (L : Nat) :
    srcLineNums (multiNoteRows notes L) = [] := by
  unfold multiNoteRows
  exact srcLineNums_map_caretRowOf _

theorem srcLineNums_noteScanGo (allNotes : List Note) (L : Nat) :
    ∀ (l : List Note) (acc : Option Note),
      srcLineNums (noteScanGo allNotes L l acc) = [] := by
  intro l
  induction l with
  | nil =>
    intro acc
    cases acc with
    | none => rfl
    | some n =>
      show srcLineNums [caretRowOf n] = []
      rfl
  | cons n rest ih =>
    intro acc
    show srcLineNums (if n.span.location.line = L then
        match acc with
        | none => noteScanGo allNotes L rest (some n)
        | some _ => multiNoteRows allNotes L
      else noteScanGo allNotes L rest acc) = []
    by_cases h : n.span.location.line = L
    · rw [if_pos h]
      cases acc with
      | none => exact ih (some n)
      | some m => exact srcLineNums_multiNoteRows allNotes L
    · rw [if_neg h]
      exact ih acc

theorem srcLineNums_lineNoteRows (notes : List Note) (L : Nat) :
    srcLineNums (lineNoteRows notes L) = [] :=
  srcLineNums_noteScanGo notes L notes none

theorem renderWindowLines_spec (notes : List Note) :
    ∀ (lns : List (Nat × List Char)) (wm : Nat),
      wm ≤ (renderWindowLines notes lns wm).2 ∧
      List.Pairwise (· < ·) (srcLineNums (renderWindowLines notes lns wm).1) ∧
      (∀ L ∈ srcLineNums (renderWindowLines notes lns wm).1,
        wm ≤ L ∧ L < (renderWindowLines notes lns wm).2) := by
  intro lns
  induction lns with
  | nil =>
    intro wm
    exact ⟨le_rfl, List.Pairwise.nil, by intro L hL; exact absurd hL (by simp [renderWindowLines, srcLineNums])⟩
  | cons hd rest ih =>
    intro wm
    obtain ⟨L0, d⟩ := hd
    show wm ≤ (if L0 < wm then renderWindowLines notes rest wm else _).2 ∧ _
    by_cases h : L0 < wm
    · simp only [renderWindowLines, if_pos h]
      exact ih wm
    · simp only [renderWindowLines, if_neg h]
      obtain ⟨ih1, ih2, ih3⟩ := ih (L0 + 1)
      have hsrc : srcLineNums (RenderItem.src L0 d :: (lineNoteRows notes L0 ++
          (renderWindowLines notes rest (L0 + 1)).1)) =
          L0 :: srcLineNums ((renderWindowLines notes rest (L0 + 1)).1) := by
        have h1 : srcLineNums (RenderItem.src L0 d :: (lineNoteRows notes L0 ++
            (renderWindowLines notes rest (L0 + 1)).1)) =
            L0 :: srcLineNums (lineNoteRows notes L0 ++
              (renderWindowLines notes rest (L0 + 1)).1) := rfl
        rw [h1, srcLineNums_append, srcLineNums_lineNoteRows]
        rfl
      refine ⟨by omega, ?_, ?_⟩
      · rw [hsrc]
        refine List.pairwise_cons.2 ⟨?_, ih2⟩
        intro x hx
        have := (ih3 x hx).1
        omega
      · intro L hL
        rw [hsrc] at hL
        rcases List.mem_cons.1 hL with rfl | hL'
        · have := ih1; exact ⟨by omega, by omega⟩
        · have := ih3 L hL'
          exact ⟨by omega, this.2⟩

theorem renderNotesGo_spec (walker : FileWalker) (allNotes : List Note) :
    ∀ (notes : List Note) (wm : Nat) (items : List RenderItem),
      renderNotesGo walker allNotes notes wm = .ok items →
      List.Pairwise (· < ·) (srcLineNums items) ∧
      ∀ L ∈ srcLineNums items, wm ≤ L := by
  intro notes
  induction notes with
  | nil =>
    intro wm items h
    obtain rfl : ([] : List RenderItem) = items := by simpa [renderNotesGo] using h
    exact ⟨List.Pairwise.nil, by intro L hL; exact absurd hL (by simp [srcLineNums])⟩
  | cons n rest ih =>
    intro wm items h
    simp only [renderNotesGo] at h
    cases hw : windowLines walker n.span with
    | error e => simp only [hw] at h; exact absurd h (by simp)
    | ok lns =>
      simp only [hw] at h
      cases hr : renderNotesGo walker allNotes rest (renderWindowLines allNotes lns wm).2 with
      | error e => simp only [hr] at h; exact absurd h (by simp)
      | ok items' =>
        simp only [hr] at h
        obtain rfl : (renderWindowLines allNotes lns wm).1 ++ items' = items := by
          simpa using h
        obtain ⟨hwm, hpw, hbound⟩ := renderWindowLines_spec allNotes lns wm
        obtain ⟨hpw', hbound'⟩ := ih (renderWindowLines allNotes lns wm).2 items' hr
        rw [srcLineNums_append]
        constructor
        · refine List.pairwise_append.2 ⟨hpw, hpw', ?_⟩
          intro a ha b hb
          have h1 := (hbound a ha).2
          have h2 := hbound' b hb
          omega
        · intro L hL
          rcases List.mem_append.1 hL with hL' | hL'
          · exact (hbound L hL').1
          · have := hbound' L hL'
            omega

theorem insertByCmp_perm {α : Type} (cmp : α → α → Ordering) (x : α) (l : List α) :
    (insertByCmp cmp x l).Perm (x :: l) := by
  induction l with
  | nil => exact List.Perm.refl _
  | cons y ys ih =>
    show (if cmp x y = .gt then y :: insertByCmp cmp x ys else x :: y :: ys).Perm (x :: y :: ys)
    by_cases h : cmp x y = .gt
    · rw [if_pos h]
      exact (ih.cons y).trans (List.Perm.swap x y ys)
    · rw [if_neg h]

theorem sortByCmp_perm {α : Type} (cmp : α → α → Ordering) (l : List α) :
    (sortByCmp cmp l).Perm l := by
  induction l with
  | nil => exact List.Perm.refl _
  | cons x xs ih =>
    show (insertByCmp cmp x (sortByCmp cmp xs)).Perm (x :: xs)
    exact (insertByCmp_perm cmp x (sortByCmp cmp xs)).trans (ih.cons x)

theorem insertByCmp_pairwise {α : Type} (cmp : α → α → Ordering)
    (htot : ∀ a b, cmp a b = .gt → cmp b a ≠ .gt)
    (htrans : ∀ a b c, cmp a b ≠ .gt → cmp b c ≠ .gt → cmp a c ≠ .gt)
    (x : α) : ∀ (l : List α), List.Pairwise (fun a b => cmp a b ≠ .gt) l →
    List.Pairwise (fun a b => cmp a b ≠ .gt) (insertByCmp cmp x l) := by
  intro l
  induction l with
  | nil => intro _; simp [insertByCmp]
  | cons y ys ih =>
    intro hl
    obtain ⟨hy, hys⟩ := List.pairwise_cons.1 hl
    show List.Pairwise _ (if cmp x y = .gt then y :: insertByCmp cmp x ys else x :: y :: ys)
    by_cases h : cmp x y = .gt
    · rw [if_pos h]
      refine List.pairwise_cons.2 ⟨?_, ih hys⟩
      intro z hz
      have hz' := (insertByCmp_perm cmp x ys).mem_iff.1 hz
      rcases List.mem_cons.1 hz' with rfl | hz''
      · exact htot _ _ h
      · exact hy z hz''
    · rw [if_neg h]
      refine List.pairwise_cons.2 ⟨?_, hl⟩
      intro z hz
      rcases List.mem_cons.1 hz with rfl | hz'
      · exact h
      · exact htrans x y z h (hy z hz')

theorem sortByCmp_pairwise {α : Type} (cmp : α → α → Ordering)
    (htot : ∀ a b, cmp a b = .gt → cmp b a ≠ .gt)
    (htrans : ∀ a b c, cmp a b ≠ .gt → cmp b c ≠ .gt → cmp a c ≠ .gt)
    (l : List α) :
    List.Pairwise (fun a b => cmp a b ≠ .gt) (sortByCmp cmp l) := by
  induction l with
  | nil => exact List.Pairwise.nil
  | cons x xs ih =>
    exact insertByCmp_pairwise cmp htot htrans x (sortByCmp cmp xs) ih

theorem cmpColDesc_le (a b : Note) :
    cmpColDesc a b ≠ .gt ↔ b.span.location.column ≤ a.span.location.column := by
  simp only [cmpColDesc, ne_eq, Nat.compare_eq_gt]
  omega

theorem noteScanGo_multi (allNotes : List Note) (L : Nat) :
    ∀ (l : List Note) (acc : Option Note),
      (match acc with | none => 2 | some _ => 1) ≤
        (l.filter (fun v => v.span.location.line == L)).length →
      noteScanGo allNotes L l acc = multiNoteRows allNotes L := by
  intro l
  induction l with
  | nil =>
    intro acc hacc
    cases acc <;> simp at hacc
  | cons n rest ih =>
    intro acc hacc
    by_cases h : n.span.location.line = L
    · cases acc with
      | none =>
        rw [show noteScanGo allNotes L (n :: rest) none =
          noteScanGo allNotes L rest (some n) from by simp [noteScanGo, h]]
        apply ih (some n)
        have hfil : (List.filter (fun v => v.span.location.line == L) (n :: rest)) =
            n :: List.filter (fun v => v.span.location.line == L) rest := by
          rw [List.filter_cons_of_pos]
          simp [h]
        rw [hfil] at hacc
        simpa using Nat.le_of_succ_le_succ (by simpa using hacc)
      | some m =>
        rw [show noteScanGo allNotes L (n :: rest) (some m) =
          multiNoteRows allNotes L from by simp [noteScanGo, h]]
    · rw [show noteScanGo allNotes L (n :: rest) acc =
        noteScanGo allNotes L rest acc from by simp [noteScanGo, h]]
      apply ih acc
      have hfil : (List.filter (fun v => v.span.location.line == L) (n :: rest)) =
          List.filter (fun v => v.span.location.line == L) rest := by
        rw [List.filter_cons_of_neg]
        simp [h]
      rw [hfil] at hacc
      exact hacc

/-- C8: in the rendered output the printed source-line numbers are strictly
increasing, so every source line — in particular one carrying two or more
notes, and lines shared by overlapping one-line context windows — is
printed at most once; each printed line is immediately followed by its
caret rows, and for a line carrying two or more notes those rows are the
`MultiNoteDisplay` rows: exactly one caret row per note anchored to the
line, each positioned by its own note's column and span width, in
descending column order.  The concrete conjunct shows the full trace for
two notes on line 1 and one note on line 2 of `"ab\ncd\nef\ngh"`: each
line printed once, the line-1 block holding the column-1 row before the
column-0 row. -/
theorem c8_render_spec :
    (∀ (walker : FileWalker) (notes : List Note) (items : List RenderItem),
      renderBody walker notes = .ok items →
      List.Pairwise (· < ·) (srcLineNums items) ∧ (srcLineNums items).Nodup) ∧
    (∀ (notes : List Note) (L : Nat),
      2 ≤ (notes.filter (fun v => v.span.location.line == L)).length →
      lineNoteRows notes L = multiNoteRows notes L ∧
      (multiNoteRows notes L).length =
        (notes.filter (fun v => v.span.location.line == L)).length ∧
      (multiNoteRows notes L).Perm
        ((notes.filter (fun v => v.span.location.line == L)).map caretRowOf) ∧
      List.Pairwise (fun a b => caretColumn b ≤ caretColumn a) (multiNoteRows notes L)) ∧
    errorRenderFmt .Error "msg" { column := 0, line := 1, filename := "input" }
      [noteA, noteB, noteC] renderWalker =
      .ok [.header .Error "msg" { column := 0, line := 1, filename := "input" },
           .src 0 ['a', 'b'],
           .src 1 ['c', 'd'],
           .caret 1 1 "second" .Warning,
           .caret 0 2 "first" .Error,
           .src 2 ['e', 'f'],
           .caret 0 2 "third" .Info,
           .src 3 ['g', 'h']] := by
  have htot : ∀ a b : Note, cmpColDesc a b = .gt → cmpColDesc b a ≠ .gt := by
    intro a b h
    simp only [cmpColDesc, ne_eq, Nat.compare_eq_gt] at h ⊢
    omega
  have htrans : ∀ a b c : Note, cmpColDesc a b ≠ .gt → cmpColDesc b c ≠ .gt →
      cmpColDesc a c ≠ .gt := by
    intro a b c hab hbc
    rw [cmpColDesc_le] at hab hbc ⊢
    omega
  refine ⟨?_, ?_, by rfl⟩
  · intro walker notes items h
    have hspec := renderNotesGo_spec walker notes notes 0 items h
    refine ⟨hspec.1, ?_⟩
    exact hspec.1.imp (fun hlt => Nat.ne_of_lt hlt)
  · intro notes L hlen
    refine ⟨noteScanGo_multi notes L notes none hlen, ?_, ?_, ?_⟩
    · unfold multiNoteRows
      rw [List.length_map]
      exact (sortByCmp_perm cmpColDesc _).length_eq
    · exact (sortByCmp_perm cmpColDesc _).map caretRowOf
    · unfold multiNoteRows
      refine List.Pairwise.map caretRowOf ?_
        (sortByCmp_pairwise cmpColDesc htot htrans _)
      intro a b hab
      rw [cmpColDesc_le] at hab
      exact hab

/-- C8 witness: `c8_render_spec` instantiated at the three-note renderer
example. -/
theorem c8_render_spec_witness :
    (renderBody renderWalker (sortByCmp cmpNote [noteA, noteB, noteC]) =
      .ok [.src 0 ['a', 'b'],
           .src 1 ['c', 'd'],
           .caret 1 1 "second" .Warning,
           .caret 0 2 "first" .Error,
           .src 2 ['e', 'f'],
           .caret 0 2 "third" .Info,
           .src 3 ['g', 'h']]) ∧
    (List.Pairwise (· < ·) (srcLineNums
      [.src 0 ['a', 'b'],
       .src 1 ['c', 'd'],
       .caret 1 1 "second" .Warning,
       .caret 0 2 "first" .Error,
       .src 2 ['e', 'f'],
       .caret 0 2 "third" .Info,
       .src 3 ['g', 'h']]) ∧ (srcLineNums
      [.src 0 ['a', 'b'],
       .src 1 ['c', 'd'],
       .caret 1 1 "second" .Warning,
       .caret 0 2 "first" .Error,
       .src 2 ['e', 'f'],
       .caret 0 2 "third" .Info,
       .src 3 ['g', 'h']]).Nodup) ∧
    (2 ≤ (([noteA, noteB, noteC].filter (fun v => v.span.location.line == 1)).length)) ∧
    (lineNoteRows [noteA, noteB, noteC] 1 = multiNoteRows [noteA, noteB, noteC] 1 ∧
      (multiNoteRows [noteA, noteB, noteC] 1).length =
        ([noteA, noteB, noteC].filter (fun v => v.span.location.line == 1)).length ∧
      (multiNoteRows [noteA, noteB, noteC] 1).Perm
        (([noteA, noteB, noteC].filter (fun v => v.span.location.line == 1)).map caretRowOf) ∧
      List.Pairwise (fun a b => caretColumn b ≤ caretColumn a)
        (multiNoteRows [noteA, noteB, noteC] 1)) := by
  refine ⟨by rfl, ?_, by decide, ?_⟩
  · exact c8_render_spec.1 renderWalker (sortByCmp cmpNote [noteA, noteB, noteC]) _ (by rfl)
  · exact c8_render_spec.2.1 [noteA, noteB, noteC] 1 (by decide)

end CompilerUtils
